import Mathlib

/-!
# Verification of the vendorhub image upload and lifecycle subsystem

Shallow embedding of the image-upload subsystem of the vendorhub backend:
the Supabase storage layer (`internal/storage/storage.go`), the image
lifecycle coordinator (`UploadProductImage` and friends in
`internal/handlers/admin_handlers.go` plus `internal/service/user_service.go`),
and the metadata repository (`internal/repository/product_repo.go`).

Go strings are modelled as `List Char` so that character-level operations
(`strings.Split`, `strings.Contains`, `filepath.Ext`) can be reasoned about
directly.  Each Go function is translated as-is; external effects (the
Supabase backend, the Postgres pool) are modelled as explicit oracles and
event traces.
-/

namespace VendorHub

/-- Go strings, modelled as character lists. -/
abbrev Str := List Char

/-- Convert a Lean string literal to the `Str` model. -/
def str (s : String) : Str := s.toList

/-- `strings.Contains(hay, needle)`: substring containment. -/
def containsStr (hay needle : Str) : Bool :=
  match hay with
  | [] => needle.isEmpty
  | _ :: t => needle.isPrefixOf hay || containsStr t needle

/-- `strings.Split(s, sep)` for a one-character separator: the list of
maximal runs between occurrences of `sep`.  Always nonempty. -/
def splitOn (sep : Char) : Str → List Str
  | [] => [[]]
  | c :: rest =>
    match splitOn sep rest with
    | [] => [[]]
    | p :: ps => if c = sep then [] :: p :: ps else (c :: p) :: ps

/-- `parts[len(parts)-1]` applied to `strings.Split(s, "/")`: the trailing
path segment of a reference (the whole string when it has no slash). -/
def lastSegment (s : Str) : Str := (splitOn '/' s).getLastD []

/-! ## Storage layer (`internal/storage/storage.go`) -/

/-- `SupabaseStorage` struct: bucket name, project URL, max file size.
The `client` field is an external handle modelled by the `Backend` oracle. -/
structure SupabaseStorage where
  bucket : Str
  supabaseURL : Str
  maxFileSize : Int
deriving Repr, DecidableEq

/-- `NewSupabaseStorage`: trims a trailing "/" from the URL and sets the
10 MiB default limit (client construction is external). -/
def NewSupabaseStorage (url bucket : Str) : SupabaseStorage :=
  { bucket := bucket
    supabaseURL := if str "/" <:+ url then url.dropLast else url
    maxFileSize := 10 * 1024 * 1024 }

/-- `GetURL`: extracts the trailing segment when the argument contains a
slash, then formats `%s/storage/v1/object/public/%s/%s` with the project
URL, the bucket and the filename. -/
def GetURL (ss : SupabaseStorage) (filename : Str) : Str :=
  let f := if containsStr filename (str "/") then lastSegment filename else filename
  ss.supabaseURL ++ str "/storage/v1/object/public/" ++ ss.bucket ++ '/' :: f

/-! ### Lemmas about `splitOn` and `lastSegment` -/

theorem str_slash : str "/" = ['/'] := rfl

theorem contains_tt (l : Str) (c : Char) : l.contains c = true ↔ c ∈ l :=
  List.elem_iff

theorem contains_ff (l : Str) (c : Char) : l.contains c = false ↔ c ∉ l := by
  constructor
  · intro h hm
    rw [← contains_tt] at hm
    rw [h] at hm
    exact Bool.false_ne_true hm
  · intro h
    cases hb : l.contains c
    · rfl
    · exact absurd ((contains_tt l c).mp hb) h

theorem splitOn_cons_sep (sep c : Char) (rest p : Str) (ps : List Str)
    (hs : splitOn sep rest = p :: ps) (hc : c = sep) :
    splitOn sep (c :: rest) = [] :: p :: ps := by
  unfold splitOn
  rw [hs]
  simp [hc]

theorem splitOn_cons_ne (sep c : Char) (rest p : Str) (ps : List Str)
    (hs : splitOn sep rest = p :: ps) (hc : ¬ c = sep) :
    splitOn sep (c :: rest) = (c :: p) :: ps := by
  unfold splitOn
  rw [hs]
  simp [hc]

theorem splitOn_ne_nil (sep : Char) (s : Str) : splitOn sep s ≠ [] := by
  cases s with
  | nil => simp [splitOn]
  | cons c rest =>
    simp only [splitOn]
    cases h : splitOn sep rest with
    | nil => simp
    | cons p ps =>
      by_cases hc : c = sep <;> simp [hc]

theorem containsStr_singleton (hay : Str) (c : Char) :
    containsStr hay [c] = hay.contains c := by
  induction hay with
  | nil => simp [containsStr, List.contains]
  | cons a t ih =>
    simp only [containsStr, ih, List.isPrefixOf, List.contains_cons]
    simp [Bool.and_comm]

theorem splitOn_no_sep (sep : Char) (s : Str) (h : sep ∉ s) :
    splitOn sep s = [s] := by
  induction s with
  | nil => simp [splitOn]
  | cons c rest ih =>
    simp only [List.mem_cons, not_or] at h
    obtain ⟨h1, h2⟩ := h
    rw [splitOn_cons_ne sep c rest rest [] (ih h2) (fun he => h1 he.symm)]

theorem lastSegment_no_slash (s : Str) (h : '/' ∉ s) :
    lastSegment s = s := by
  rw [lastSegment, splitOn_no_sep '/' s h]
  rfl

theorem splitOn_length_ge_two (sep : Char) (s : Str) (h : sep ∈ s) :
    2 ≤ (splitOn sep s).length := by
  induction s with
  | nil => simp at h
  | cons c rest ih =>
    cases hs : splitOn sep rest with
    | nil => exact absurd hs (splitOn_ne_nil sep rest)
    | cons p ps =>
      by_cases hc : c = sep
      · rw [splitOn_cons_sep sep c rest p ps hs hc]
        simp
      · have hrest : sep ∈ rest := by
          rcases List.mem_cons.mp h with h1 | h1
          · exact absurd h1.symm hc
          · exact h1
        have h2 := ih hrest
        rw [hs] at h2
        rw [splitOn_cons_ne sep c rest p ps hs hc]
        simpa using h2

theorem getLastD_cons_of_ne_nil {α : Type} (a d : α) (l : List α) (h : l ≠ []) :
    (a :: l).getLastD d = l.getLastD d := by
  cases l with
  | nil => exact absurd rfl h
  | cons b t => simp [List.getLastD]

theorem lastSegment_append_slash (xs ys : Str) :
    lastSegment (xs ++ '/' :: ys) = lastSegment ys := by
  induction xs with
  | nil =>
    rw [List.nil_append]
    cases hs : splitOn '/' ys with
    | nil => exact absurd hs (splitOn_ne_nil '/' ys)
    | cons p ps =>
      rw [lastSegment, splitOn_cons_sep '/' '/' ys p ps hs rfl,
          getLastD_cons_of_ne_nil _ _ (p :: ps) (by simp), lastSegment, hs]
  | cons c xs' ih =>
    rw [List.cons_append]
    cases hs : splitOn '/' (xs' ++ '/' :: ys) with
    | nil => exact absurd hs (splitOn_ne_nil '/' (xs' ++ '/' :: ys))
    | cons p ps =>
      have hlen : 2 ≤ (splitOn '/' (xs' ++ '/' :: ys)).length := by
        apply splitOn_length_ge_two
        simp
      rw [hs] at hlen
      simp only [List.length_cons] at hlen
      have hps : ps ≠ [] := by
        intro he
        subst he
        simp at hlen
      rw [lastSegment, hs, getLastD_cons_of_ne_nil _ _ ps hps] at ih
      by_cases hc : c = '/'
      · rw [lastSegment, splitOn_cons_sep '/' c _ p ps hs hc,
            getLastD_cons_of_ne_nil _ _ (p :: ps) (by simp),
            getLastD_cons_of_ne_nil _ _ ps hps]
        exact ih
      · rw [lastSegment, splitOn_cons_ne '/' c _ p ps hs hc,
            getLastD_cons_of_ne_nil _ _ ps hps]
        exact ih

theorem slash_not_mem_lastSegment (s : Str) : '/' ∉ lastSegment s := by
  induction s with
  | nil =>
    simp [lastSegment, splitOn]
  | cons c rest ih =>
    cases hs : splitOn '/' rest with
    | nil => exact absurd hs (splitOn_ne_nil '/' rest)
    | cons p ps =>
      rw [lastSegment, hs] at ih
      by_cases hc : c = '/'
      · rw [lastSegment, splitOn_cons_sep '/' c rest p ps hs hc,
            getLastD_cons_of_ne_nil _ _ (p :: ps) (by simp)]
        exact ih
      · rw [lastSegment, splitOn_cons_ne '/' c rest p ps hs hc]
        cases ps with
        | nil =>
          simp only [List.getLastD_cons, List.getLastD_nil] at ih ⊢
          simp only [List.mem_cons, not_or]
          exact ⟨fun he => hc he.symm, ih⟩
        | cons q qs =>
          rw [getLastD_cons_of_ne_nil _ _ (q :: qs) (by simp)]
          rw [getLastD_cons_of_ne_nil _ _ (q :: qs) (by simp)] at ih
          exact ih

/-- The filename component that `GetURL` appends after the final slash. -/
def extractFilename (r : Str) : Str :=
  if containsStr r (str "/") then lastSegment r else r

theorem GetURL_eq (ss : SupabaseStorage) (r : Str) :
    GetURL ss r =
      ss.supabaseURL ++ str "/storage/v1/object/public/" ++ ss.bucket ++
        '/' :: extractFilename r := rfl

theorem slash_not_mem_extractFilename (r : Str) : '/' ∉ extractFilename r := by
  rw [extractFilename]
  cases hx : containsStr r (str "/") with
  | true =>
    simp only [if_true]
    exact slash_not_mem_lastSegment r
  | false =>
    simp only [Bool.false_eq_true, if_false]
    have := containsStr_singleton r '/'
    rw [str_slash] at hx
    rw [hx] at this
    exact (contains_ff r '/').mp this.symm

/-- Claim C9: `GetURL` (the Resolve operation) is a pure total function of the
reference (it is a Lean function with no error result), and it is idempotent:
resolving an already-full locator re-extracts the trailing filename and
re-joins it with the configured base locator, so no double-prefixing occurs. -/
theorem getURL_idempotent (ss : SupabaseStorage) (r : Str) :
    GetURL ss (GetURL ss r) = GetURL ss r := by
  have hmem : '/' ∈ GetURL ss r := by
    rw [GetURL_eq]
    simp
  have hcontains : containsStr (GetURL ss r) (str "/") = true := by
    rw [str_slash, containsStr_singleton]
    exact (contains_tt _ _).mpr hmem
  have hassoc :
      ss.supabaseURL ++ str "/storage/v1/object/public/" ++ ss.bucket ++
          '/' :: extractFilename r
        = (ss.supabaseURL ++ str "/storage/v1/object/public/" ++ ss.bucket) ++
          '/' :: extractFilename r := by
    simp [List.append_assoc]
  have hcomp : extractFilename (GetURL ss r) = extractFilename r := by
    rw [extractFilename, if_pos hcontains, GetURL_eq, hassoc,
        lastSegment_append_slash, lastSegment_no_slash _ (slash_not_mem_extractFilename r)]
  rw [GetURL_eq ss (GetURL ss r), hcomp, GetURL_eq ss r]

/-! ### `SaveFile` and `DeleteFile` -/

/-- Requests issued to the Supabase backend. -/
inductive StorageCall where
  | upload (bucket filename : Str)
  | remove (bucket filename : Str)
deriving Repr, DecidableEq

/-- Oracle for the external Supabase client: the error message (if any) each
upload / remove request would produce; `none` is success. -/
structure Backend where
  uploadErr : Str → Option Str
  removeErr : Str → Option Str

/-- Go error values, one constructor per `fmt.Errorf` / `errors.New` site in
the embedded code; `%w` wrapping is modelled by a nested error. -/
inductive GoError where
  | fileIsNil
  | sizeExceeded (max : Int)
  | fileTypeNotAllowed (ext : Str)
  | openUploadedFileFailed
  | uploadToSupabaseFailed (underlying : Str)
  | invalidFilename
  | fileNotFound
  | deleteFromSupabaseFailed (underlying : Str)
  | productNotFoundRepo
  | getProductFailed (underlying : Str)
  | createProductImageFailedRepo (underlying : Str)
  | productImageNotFoundRepo
  | getProductImageFailed (underlying : Str)
  | updateImagePositionFailed (underlying : Str)
  | imageRowNotFound
  | emptyProductOrVendorID
  | productNotFoundWrap (wrapped : GoError)
  | productNotOwnedByVendor
  | createProductImageFailed (wrapped : GoError)
  | emptyImageOrVendorID
  | imagePositionNegative
  | imageNotFoundWrap (wrapped : GoError)
  | imageNotOwnedByVendor
  | errUnauthorized
deriving Repr, DecidableEq

/-- `multipart.FileHeader`: declared filename, declared size, and whether
`file.Open()` succeeds (the byte stream itself is opaque). -/
structure FileHeader where
  filename : Str
  size : Int
  openOk : Bool
deriving Repr, DecidableEq

/-- `strings.ToLower` (ASCII suffices for the extensions involved). -/
def toLowerStr (s : Str) : Str := s.map Char.toLower

/-- `filepath.Ext`: the suffix of the final path element beginning at its
final dot; empty when that element has no dot. -/
def filepathExt (path : Str) : Str :=
  let base := lastSegment path
  if base.contains '.' then '.' :: (splitOn '.' base).getLastD [] else []

/-- The `allowedExts` map lookup in `SaveFile`. -/
def allowedExts (ext : Str) : Bool :=
  decide (ext = str ".jpg") || decide (ext = str ".jpeg") ||
  decide (ext = str ".png") || decide (ext = str ".gif") ||
  decide (ext = str ".webp")

/-- `generateUniqueFilename`: `fmt.Sprintf("%d_%s%s", timestamp, id, ext)`.
The decimal rendering of `time.Now().Unix()` and the first 8 characters of
the fresh UUID are supplied by the environment. -/
def generateUniqueFilename (timestamp id8 ext : Str) : Str :=
  timestamp ++ '_' :: (id8 ++ ext)

/-- `SaveFile`: nil check, size check, extension check, open, unique-name
generation, upload, and finally returns the full public URL
(`GetURL filename`, not the bare filename).  Paired with the list of
backend requests issued. -/
def SaveFile (ss : SupabaseStorage) (backend : Backend) (file : Option FileHeader)
    (timestamp id8 : Str) : Except GoError Str × List StorageCall :=
  match file with
  | none => (.error .fileIsNil, [])
  | some f =>
    if f.size > ss.maxFileSize then (.error (.sizeExceeded ss.maxFileSize), [])
    else
      let ext := toLowerStr (filepathExt f.filename)
      if allowedExts ext = false then (.error (.fileTypeNotAllowed ext), [])
      else if f.openOk = false then (.error .openUploadedFileFailed, [])
      else
        let filename := generateUniqueFilename timestamp id8 ext
        match backend.uploadErr filename with
        | some e => (.error (.uploadToSupabaseFailed e), [.upload ss.bucket filename])
        | none => (.ok (GetURL ss filename), [.upload ss.bucket filename])

/-- `DeleteFile`: extracts the trailing path segment when a full locator is
passed, rejects names containing "..", then issues one remove request and
maps a "not found" backend message to the not-found error. -/
def DeleteFile (ss : SupabaseStorage) (backend : Backend) (filename0 : Str) :
    Except GoError Unit × List StorageCall :=
  let filename := extractFilename filename0
  if containsStr filename (str "..") then (.error .invalidFilename, [])
  else
    match backend.removeErr filename with
    | some e =>
      if containsStr e (str "not found") then
        (.error .fileNotFound, [.remove ss.bucket filename])
      else
        (.error (.deleteFromSupabaseFailed e), [.remove ss.bucket filename])
    | none => (.ok (), [.remove ss.bucket filename])

instance {ε α : Type} [DecidableEq ε] [DecidableEq α] :
    DecidableEq (Except ε α) := fun x y =>
  match x, y with
  | .ok a, .ok b =>
    if h : a = b then .isTrue (by rw [h])
    else .isFalse (by intro he; cases he; exact h rfl)
  | .error a, .error b =>
    if h : a = b then .isTrue (by rw [h])
    else .isFalse (by intro he; cases he; exact h rfl)
  | .ok _, .error _ => .isFalse (by intro he; cases he)
  | .error _, .ok _ => .isFalse (by intro he; cases he)

/-- A concrete storage configuration used in counterexamples and witnesses. -/
def ssTest : SupabaseStorage :=
  { bucket := str "images"
    supabaseURL := str "https://proj.supabase.co"
    maxFileSize := 10485760 }

/-- A backend on which every request succeeds. -/
def backendOk : Backend :=
  { uploadErr := fun _ => none
    removeErr := fun _ => none }

/-- C3 counterexample: `DeleteFile` with the reference "../../etc/passwd"
does not fail with the invalid-reference error and the backend is touched:
the leading traversal segments are stripped by the trailing-segment
extraction before the ".." check runs, and a remove request for "passwd"
is issued. -/
theorem deleteFile_traversal_counterexample :
    (DeleteFile ssTest backendOk (str "../../etc/passwd")).1
        ≠ Except.error GoError.invalidFilename ∧
    (DeleteFile ssTest backendOk (str "../../etc/passwd")).2
        = [StorageCall.remove (str "images") (str "passwd")] := by
  decide

/-- C3 amended: any reference whose trailing path segment (after the full-
locator extraction) contains ".." is rejected with the invalid-filename
error and no request reaches the backend. -/
theorem deleteFile_dotdot_rejected (ss : SupabaseStorage) (backend : Backend)
    (r : Str) (h : containsStr (extractFilename r) (str "..") = true) :
    DeleteFile ss backend r = (Except.error GoError.invalidFilename, []) := by
  rw [DeleteFile]
  simp only [h, if_true]

/-- C3 amended, witnessed at the reference "..": rejected with no backend
request. -/
theorem deleteFile_dotdot_rejected_witness :
    containsStr (extractFilename (str "..")) (str "..") = true ∧
    DeleteFile ssTest backendOk (str "..")
      = (Except.error GoError.invalidFilename, []) :=
  ⟨by decide, deleteFile_dotdot_rejected ssTest backendOk (str "..") (by decide)⟩

/-- The file header used in concrete upload scenarios. -/
def photoJpg : FileHeader :=
  { filename := str "photo.jpg", size := 1000, openOk := true }

/-- C4 counterexample: a successful `SaveFile` of "photo.jpg" does not
return the generated bare filename "1700000000_abcd1234.jpg"; it returns
the full public URL built from the project URL and bucket. -/
theorem saveFile_bare_filename_counterexample :
    (SaveFile ssTest backendOk (some photoJpg) (str "1700000000") (str "abcd1234")).1
        ≠ Except.ok (generateUniqueFilename (str "1700000000") (str "abcd1234") (str ".jpg")) ∧
    (SaveFile ssTest backendOk (some photoJpg) (str "1700000000") (str "abcd1234")).1
        = Except.ok (str "https://proj.supabase.co/storage/v1/object/public/images/1700000000_abcd1234.jpg") := by
  decide

/-- C4 amended: every successful `SaveFile` returns `GetURL` of the
generated filename — the full externally resolvable URL, which contains a
slash — rather than the bare generated reference. -/
theorem saveFile_ok_returns_full_url (ss : SupabaseStorage) (backend : Backend)
    (f : FileHeader) (ts id8 r : Str) (calls : List StorageCall)
    (h : SaveFile ss backend (some f) ts id8 = (Except.ok r, calls)) :
    r = GetURL ss (generateUniqueFilename ts id8 (toLowerStr (filepathExt f.filename))) ∧
    '/' ∈ r := by
  simp only [SaveFile] at h
  split at h
  · simp at h
  · split at h
    · simp at h
    · split at h
      · simp at h
      · split at h
        · simp at h
        · simp only [Prod.mk.injEq, Except.ok.injEq] at h
          refine ⟨h.1.symm, ?_⟩
          rw [← h.1, GetURL_eq]
          simp

/-! ## Data model (`internal/models`, `internal/db/schema.sql`) -/

/-- `models.Product`, restricted to the fields the image subsystem reads. -/
structure Product where
  id : Str
  userID : Str
deriving Repr, DecidableEq

/-- `models.ProductImage`. -/
structure ProductImage where
  id : Str
  productID : Str
  imageURL : Str
  position : Int
  createdAt : Nat
deriving Repr, DecidableEq

/-- The relational state the image subsystem reads and writes. -/
structure DB where
  products : List Product
  productImages : List ProductImage
deriving Repr, DecidableEq

/-- Metadata-store (Postgres) requests issued by the repository layer. -/
inductive MetaCall where
  | getProduct (id : Str)
  | selectImages (productID : Str)
  | insertImage (img : ProductImage)
  | getImage (id : Str)
  | updatePosition (id : Str) (position : Int)
  | deleteImage (id : Str)
deriving Repr, DecidableEq

/-! ## Repository layer (`internal/repository/product_repo.go`) -/

/-- `ProductRepository.GetProductByID`: `SELECT ... FROM products WHERE
id = $1`; `pgx.ErrNoRows` becomes the "product not found" error. -/
def repoGetProductByID (db : DB) (productID : Str) : Except GoError Product :=
  match db.products.find? (fun p => decide (p.id = productID)) with
  | some p => .ok p
  | none => .error .productNotFoundRepo

/-- `ProductRepository.CreateProductImage`: assigns a fresh UUID, runs the
`INSERT ... RETURNING`, and scans the stored row back (`created_at` is
database-assigned).  `insertErr` injects a database failure of the insert,
in which case no row is stored. -/
def repoCreateProductImage (db : DB) (img : ProductImage) (newID : Str)
    (now : Nat) (insertErr : Option Str) : Except GoError ProductImage × DB :=
  let image := { img with id := newID, createdAt := now }
  match insertErr with
  | some e => (.error (.createProductImageFailedRepo e), db)
  | none => (.ok image, { db with productImages := db.productImages ++ [image] })

/-- Stable insertion into an ascending position-sorted list. -/
def insertByPos (a : ProductImage) : List ProductImage → List ProductImage
  | [] => [a]
  | b :: l => if a.position ≤ b.position then a :: b :: l else b :: insertByPos a l

/-- `ORDER BY position ASC` modelled as a stable ascending sort (the
tie-break among equal positions is implementation-defined in SQL; the
stable order refines it deterministically). -/
def orderByPositionAsc : List ProductImage → List ProductImage
  | [] => []
  | a :: rest => insertByPos a (orderByPositionAsc rest)

/-- `ProductRepository.GetProductImages`: `SELECT ... FROM product_images
WHERE product_id = $1 ORDER BY position ASC` (row scanning errors are pool
failures, outside the relational model). -/
def repoGetProductImages (db : DB) (productID : Str) : List ProductImage :=
  orderByPositionAsc (db.productImages.filter (fun i => decide (i.productID = productID)))

/-- `ProductRepository.GetProductImage`: `SELECT ... WHERE id = $1`;
`pgx.ErrNoRows` becomes the "product image not found" error. -/
def repoGetProductImage (db : DB) (imageID : Str) : Except GoError ProductImage :=
  match db.productImages.find? (fun i => decide (i.id = imageID)) with
  | some i => .ok i
  | none => .error .productImageNotFoundRepo

/-- `ProductRepository.UpdateProductImagePosition`: `UPDATE product_images
SET position = $1 WHERE id = $2`, then the `RowsAffected() == 0` check. -/
def repoUpdateProductImagePosition (db : DB) (imageID : Str) (position : Int) :
    Except GoError Unit × DB :=
  let updated := db.productImages.map
    (fun i => if i.id = imageID then { i with position := position } else i)
  if db.productImages.countP (fun i => decide (i.id = imageID)) = 0 then
    (.error .imageRowNotFound, { db with productImages := updated })
  else
    (.ok (), { db with productImages := updated })

/-! ## Service layer (`internal/service/user_service.go`) -/

/-- `dto.ProductImageResponse`. -/
structure ProductImageResponse where
  id : Str
  imageURL : Str
  position : Int
deriving Repr, DecidableEq

/-- `mapProductImageToResponse`: copies the stored reference as-is (the
`GetURL` conversion at this spot is commented out in the source). -/
def mapProductImageToResponse (image : ProductImage) : ProductImageResponse :=
  { id := image.id, imageURL := image.imageURL, position := image.position }

/-- `mapProductImagesToResponse`: explicit empty slice for no images. -/
def mapProductImagesToResponse (images : List ProductImage) :
    List ProductImageResponse :=
  if images.length = 0 then []
  else images.map mapProductImageToResponse

/-- `ProductService.CreateProductImage`: empty-argument check, product
lookup, ownership check, then the repository insert.  Returns the result,
the metadata-store requests issued, and the resulting database state. -/
def serviceCreateProductImage (db : DB) (productID vendorID : Str)
    (reqPosition : Int) (fileImageURL : Str) (newID : Str) (now : Nat)
    (insertErr : Option Str) :
    Except GoError ProductImageResponse × List MetaCall × DB :=
  if productID = [] ∨ vendorID = [] then
    (.error .emptyProductOrVendorID, [], db)
  else
    match repoGetProductByID db productID with
    | .error e => (.error (.productNotFoundWrap e), [.getProduct productID], db)
    | .ok product =>
      if ¬ product.userID = vendorID then
        (.error .productNotOwnedByVendor, [.getProduct productID], db)
      else
        let image : ProductImage :=
          { id := [], productID := productID, imageURL := fileImageURL,
            position := reqPosition, createdAt := 0 }
        let stored : ProductImage := { image with id := newID, createdAt := now }
        match repoCreateProductImage db image newID now insertErr with
        | (.error e, db') =>
          (.error (.createProductImageFailed e),
           [.getProduct productID, .insertImage stored], db')
        | (.ok createdImage, db') =>
          (.ok (mapProductImageToResponse createdImage),
           [.getProduct productID, .insertImage stored], db')

/-- `ProductService.UpdateProductImagePosition`: empty-argument check,
negative-position check, image lookup, product lookup, ownership check,
then the repository update. -/
def serviceUpdateProductImagePosition (db : DB) (imageID vendorID : Str)
    (newPosition : Int) : Except GoError Unit × List MetaCall × DB :=
  if imageID = [] ∨ vendorID = [] then
    (.error .emptyImageOrVendorID, [], db)
  else if newPosition < 0 then
    (.error .imagePositionNegative, [], db)
  else
    match repoGetProductImage db imageID with
    | .error e => (.error (.imageNotFoundWrap e), [.getImage imageID], db)
    | .ok image =>
      match repoGetProductByID db image.productID with
      | .error e =>
        (.error (.productNotFoundWrap e),
         [.getImage imageID, .getProduct image.productID], db)
      | .ok product =>
        if ¬ product.userID = vendorID then
          (.error .imageNotOwnedByVendor,
           [.getImage imageID, .getProduct image.productID], db)
        else
          match repoUpdateProductImagePosition db imageID newPosition with
          | (res, db') =>
            (res,
             [.getImage imageID, .getProduct image.productID,
              .updatePosition imageID newPosition], db')

/-! ## Handler layer (`internal/handlers/admin_handlers.go`) -/

/-- `utils.GetUserIDFromContext`: the context value must be a nonempty
string, otherwise `ErrUnauthorized`. -/
def getUserIDFromContext (v : Option Str) : Except GoError Str :=
  match v with
  | some id => if id = [] then .error .errUnauthorized else .ok id
  | none => .error .errUnauthorized

/-- `utils.GetRoleFromContext`, same shape. -/
def getRoleFromContext (v : Option Str) : Except GoError Str :=
  match v with
  | some role => if role = [] then .error .errUnauthorized else .ok role
  | none => .error .errUnauthorized

/-- The `%w` child of a wrapped error, for `errors.Is` chain walking. -/
def goErrorChild : GoError → Option GoError
  | .productNotFoundWrap w => some w
  | .createProductImageFailed w => some w
  | .imageNotFoundWrap w => some w
  | _ => none

/-- `errors.Is(e, target)` over the wrap chain. -/
def goErrorIs : GoError → GoError → Bool
  | e, target =>
    decide (e = target) ||
    (match e with
     | .productNotFoundWrap w => goErrorIs w target
     | .createProductImageFailed w => goErrorIs w target
     | .imageNotFoundWrap w => goErrorIs w target
     | _ => false)

/-- Response bodies written by the handler. -/
inductive RespBody where
  | errText (msg : Str)
  | errOf (e : GoError)
  | image (r : ProductImageResponse)
  | message (m : Str)
deriving Repr, DecidableEq

/-- An HTTP status plus body. -/
structure HTTPResponse where
  status : Nat
  body : RespBody
deriving Repr, DecidableEq

/-- `utils.HandleServiceError`: the image-subsystem service errors are all
`fmt.Errorf`-wrapped (never the `utils` sentinels except `ErrUnauthorized`
from the context helpers), so they fall to the 500 default. -/
def handleServiceError (e : GoError) : HTTPResponse :=
  if goErrorIs e .errUnauthorized then ⟨401, .errOf e⟩
  else ⟨500, .errText (str "internal server error")⟩

/-- The position form value parse in `UploadProductImage`:
`position := 0; if posStr != "" { if pos, err := Atoi(posStr); err == nil
&& pos >= 0 { position = pos } }`. -/
def digitsToNat (ds : Str) : Nat :=
  ds.foldl (fun acc c => acc * 10 + (c.toNat - 48)) 0

/-- `strconv.Atoi`: optional sign then a nonempty digit run (the int64
range is not exercised at the widths that occur here). -/
def atoi (s : Str) : Option Int :=
  match s with
  | [] => none
  | '-' :: ds =>
    if ¬ ds = [] ∧ ds.all Char.isDigit then some (-(digitsToNat ds : Int)) else none
  | '+' :: ds =>
    if ¬ ds = [] ∧ ds.all Char.isDigit then some (digitsToNat ds) else none
  | ds => if ds.all Char.isDigit then some (digitsToNat ds) else none

/-- The handler's position computation: malformed or negative form values
are silently ignored and the default 0 is kept. -/
def parsePositionForm (s : Str) : Int :=
  if ¬ s = [] then
    match atoi s with
    | some pos => if pos ≥ 0 then pos else 0
    | none => 0
  else 0

/-- Everything `UploadProductImage` reads from the request, the auth
context, and the nondeterministic environment (clock, UUIDs, insert
outcome). -/
structure UploadEnv where
  ss : SupabaseStorage
  backend : Backend
  db : DB
  productID : Str
  ctxUserID : Option Str
  ctxRole : Option Str
  parseFormOk : Bool
  formFile : Option FileHeader
  positionStr : Str
  timestamp : Str
  id8 : Str
  newImageID : Str
  now : Nat
  insertErr : Option Str

/-- The `UploadProductImage` handler: URL-param check, auth context, role
gate, multipart parse, file fetch, position parse, `SaveFile`, the service
`CreateProductImage`, the best-effort `DeleteFile` compensation when the
metadata phase fails (its own result is discarded), and the final URL
fix-up on success.  Returns the HTTP response, the storage trace, the
metadata trace, and the final database state. -/
def UploadProductImage (env : UploadEnv) :
    HTTPResponse × List StorageCall × List MetaCall × DB :=
  if env.productID = [] then
    (⟨400, .errText (str "product id is required")⟩, [], [], env.db)
  else
    match getUserIDFromContext env.ctxUserID with
    | .error e => (handleServiceError e, [], [], env.db)
    | .ok vendorID =>
      match getRoleFromContext env.ctxRole with
      | .error e => (handleServiceError e, [], [], env.db)
      | .ok role =>
        if ¬ role = str "vendor" then
          (⟨403, .errText (str "only vendors can upload product images")⟩, [], [], env.db)
        else if env.parseFormOk = false then
          (⟨400, .errText (str "failed to parse form data")⟩, [], [], env.db)
        else
          match env.formFile with
          | none => (⟨400, .errText (str "image file is required")⟩, [], [], env.db)
          | some fileHeader =>
            let position := parsePositionForm env.positionStr
            match SaveFile env.ss env.backend (some fileHeader) env.timestamp env.id8 with
            | (.error e, scalls) => (⟨400, .errOf e⟩, scalls, [], env.db)
            | (.ok filename, scalls) =>
              match serviceCreateProductImage env.db env.productID vendorID position
                  filename env.newImageID env.now env.insertErr with
              | (.error e, mcalls, db') =>
                (handleServiceError e,
                 scalls ++ (DeleteFile env.ss env.backend filename).2, mcalls, db')
              | (.ok response, mcalls, db') =>
                (⟨201, .image { response with imageURL := GetURL env.ss filename }⟩,
                 scalls, mcalls, db')

/-- A product owned by vendor "v1", used in concrete scenarios. -/
def prodP1 : Product := { id := str "p1", userID := str "v1" }

/-- A database holding just that product. -/
def dbP1 : DB := { products := [prodP1], productImages := [] }

/-- A fully successful upload request environment for product "p1" by its
owner "v1". -/
def envBase : UploadEnv :=
  { ss := ssTest
    backend := backendOk
    db := dbP1
    productID := str "p1"
    ctxUserID := some (str "v1")
    ctxRole := some (str "vendor")
    parseFormOk := true
    formFile := some photoJpg
    positionStr := []
    timestamp := str "1700000000"
    id8 := str "abcd1234"
    newImageID := str "img1"
    now := 42
    insertErr := none }

/-- A successful `SaveFile` issues exactly one upload request, for the
generated filename. -/
theorem saveFile_ok_calls (ss : SupabaseStorage) (backend : Backend)
    (f : FileHeader) (ts id8 r : Str) (calls : List StorageCall)
    (h : SaveFile ss backend (some f) ts id8 = (Except.ok r, calls)) :
    calls = [StorageCall.upload ss.bucket
      (generateUniqueFilename ts id8 (toLowerStr (filepathExt f.filename)))] := by
  simp only [SaveFile] at h
  split at h
  · simp at h
  · split at h
    · simp at h
    · split at h
      · simp at h
      · split at h
        · simp at h
        · simp only [Prod.mk.injEq] at h
          exact h.2.symm

/-- A present nonempty context user id resolves successfully. -/
theorem getUserID_some_ne (u : Str) (hu : ¬ u = []) :
    getUserIDFromContext (some u) = Except.ok u := by
  simp [getUserIDFromContext, hu]

/-- The vendor role resolves successfully. -/
theorem getRole_vendor :
    getRoleFromContext (some (str "vendor")) = Except.ok (str "vendor") := by
  decide

/-- C1 counterexample: an upload for the absent product "p2" fails with
the product-not-found service error, yet the backend has already received
the upload request for the generated file (followed by the compensating
remove): the physical artifact is created before the product lookup and
ownership check run. -/
theorem upload_notfound_artifact_counterexample :
    UploadProductImage { envBase with productID := str "p2" } =
      (⟨500, RespBody.errText (str "internal server error")⟩,
       [StorageCall.upload (str "images") (str "1700000000_abcd1234.jpg"),
        StorageCall.remove (str "images") (str "1700000000_abcd1234.jpg")],
       [MetaCall.getProduct (str "p2")], dbP1) ∧
    StorageCall.upload (str "images") (str "1700000000_abcd1234.jpg")
      ∈ (UploadProductImage { envBase with productID := str "p2" }).2.1 := by
  decide

/-- C1 amended: `SaveFile` runs before the product lookup and ownership
check; when the upload then fails with product-not-found or the ownership
mismatch, the storage backend has received the upload request for the
generated file and the handler follows it with a best-effort compensating
delete of the saved reference, while the caller sees the 500 error. -/
theorem upload_save_precedes_ownership_check (env : UploadEnv)
    (f : FileHeader) (u fname : Str) (scalls : List StorageCall)
    (hpid : ¬ env.productID = [])
    (huser : env.ctxUserID = some u) (hu : ¬ u = [])
    (hrole : env.ctxRole = some (str "vendor"))
    (hform : env.parseFormOk = true)
    (hfile : env.formFile = some f)
    (hsave : SaveFile env.ss env.backend (some f) env.timestamp env.id8
      = (Except.ok fname, scalls))
    (hfail : repoGetProductByID env.db env.productID
        = Except.error GoError.productNotFoundRepo ∨
      ∃ p, repoGetProductByID env.db env.productID = Except.ok p ∧ ¬ p.userID = u) :
    (UploadProductImage env).2.1
      = StorageCall.upload env.ss.bucket
          (generateUniqueFilename env.timestamp env.id8
            (toLowerStr (filepathExt f.filename)))
        :: (DeleteFile env.ss env.backend fname).2 ∧
    (UploadProductImage env).1.status = 500 := by
  have hcalls := saveFile_ok_calls env.ss env.backend f env.timestamp env.id8 fname scalls hsave
  rcases hfail with herr | ⟨p, hp, hne⟩
  · simp only [UploadProductImage, if_neg hpid, huser, hrole,
      getUserID_some_ne u hu, getRole_vendor, hform, hfile, hsave,
      serviceCreateProductImage, if_neg (not_or.mpr ⟨hpid, hu⟩), herr, hcalls]
    simp [handleServiceError, goErrorIs]
  · simp only [UploadProductImage, if_neg hpid, huser, hrole,
      getUserID_some_ne u hu, getRole_vendor, hform, hfile, hsave,
      serviceCreateProductImage, if_neg (not_or.mpr ⟨hpid, hu⟩), hp,
      if_pos hne, hcalls]
    simp [handleServiceError, goErrorIs]

/-- C1 amended, witnessed on the absent-product scenario. -/
theorem upload_save_precedes_ownership_check_witness :
    (UploadProductImage { envBase with productID := str "p2" }).2.1
      = StorageCall.upload (str "images") (str "1700000000_abcd1234.jpg")
        :: (DeleteFile ssTest backendOk
             (str "https://proj.supabase.co/storage/v1/object/public/images/1700000000_abcd1234.jpg")).2 ∧
    (UploadProductImage { envBase with productID := str "p2" }).1.status = 500 :=
  upload_save_precedes_ownership_check { envBase with productID := str "p2" }
    photoJpg (str "v1")
    (str "https://proj.supabase.co/storage/v1/object/public/images/1700000000_abcd1234.jpg")
    [StorageCall.upload (str "images") (str "1700000000_abcd1234.jpg")]
    (by decide) (by decide) (by decide) (by decide) (by decide) (by decide)
    (by decide) (Or.inl (by decide))

/-- C2: when the file persist succeeds and the metadata insert then fails,
the handler invokes `DeleteFile` on the phase-one reference (appending the
compensation's backend requests to the trace), the caller sees the
response derived from the original metadata-persist error — a fixed value
for every backend, so a failing compensation never escalates or replaces
it — and no metadata record is stored. -/
theorem upload_metadata_failure_compensation (env : UploadEnv)
    (f : FileHeader) (p : Product) (u fname e : Str) (scalls : List StorageCall)
    (hpid : ¬ env.productID = [])
    (huser : env.ctxUserID = some u) (hu : ¬ u = [])
    (hrole : env.ctxRole = some (str "vendor"))
    (hform : env.parseFormOk = true)
    (hfile : env.formFile = some f)
    (hsave : SaveFile env.ss env.backend (some f) env.timestamp env.id8
      = (Except.ok fname, scalls))
    (hprod : repoGetProductByID env.db env.productID = Except.ok p)
    (hown : p.userID = u)
    (hins : env.insertErr = some e) :
    (UploadProductImage env).1
      = handleServiceError (GoError.createProductImageFailed
          (GoError.createProductImageFailedRepo e)) ∧
    (UploadProductImage env).1 = ⟨500, RespBody.errText (str "internal server error")⟩ ∧
    (UploadProductImage env).2.1
      = scalls ++ (DeleteFile env.ss env.backend fname).2 ∧
    (UploadProductImage env).2.2.2 = env.db := by
  simp only [UploadProductImage, if_neg hpid, huser, hrole,
    getUserID_some_ne u hu, getRole_vendor, hform, hfile, hsave,
    serviceCreateProductImage, if_neg (not_or.mpr ⟨hpid, hu⟩), hprod, hown,
    repoCreateProductImage, hins]
  simp [handleServiceError, goErrorIs]

/-- C2, witnessed on the concrete insert-failure scenario. -/
theorem upload_metadata_failure_compensation_witness :
    (UploadProductImage { envBase with insertErr := some (str "boom") }).1
      = handleServiceError (GoError.createProductImageFailed
          (GoError.createProductImageFailedRepo (str "boom"))) ∧
    (UploadProductImage { envBase with insertErr := some (str "boom") }).1
      = ⟨500, RespBody.errText (str "internal server error")⟩ ∧
    (UploadProductImage { envBase with insertErr := some (str "boom") }).2.1
      = [StorageCall.upload (str "images") (str "1700000000_abcd1234.jpg")]
        ++ (DeleteFile ssTest backendOk
             (str "https://proj.supabase.co/storage/v1/object/public/images/1700000000_abcd1234.jpg")).2 ∧
    (UploadProductImage { envBase with insertErr := some (str "boom") }).2.2.2 = dbP1 :=
  upload_metadata_failure_compensation { envBase with insertErr := some (str "boom") }
    photoJpg prodP1 (str "v1")
    (str "https://proj.supabase.co/storage/v1/object/public/images/1700000000_abcd1234.jpg")
    (str "boom")
    [StorageCall.upload (str "images") (str "1700000000_abcd1234.jpg")]
    (by decide) (by decide) (by decide) (by decide) (by decide) (by decide)
    (by decide) (by decide) (by decide) (by decide)

/-- C5 counterexample: an upload whose position form value is "-5" is not
rejected — it succeeds (201) with the substituted default position 0, and
the storage backend receives the save. -/
theorem upload_negative_position_counterexample :
    (UploadProductImage { envBase with positionStr := str "-5" }).1
      = ⟨201, RespBody.image
          { id := str "img1",
            imageURL := str "https://proj.supabase.co/storage/v1/object/public/images/1700000000_abcd1234.jpg",
            position := 0 }⟩ ∧
    (UploadProductImage { envBase with positionStr := str "-5" }).2.1
      = [StorageCall.upload (str "images") (str "1700000000_abcd1234.jpg")] := by
  decide

/-- C5 amended: a negative position form value fails the `pos >= 0` guard
of the handler's position parse and is silently ignored: the default 0 is
used and the upload behaves exactly as if no position had been supplied
(no invalid-position rejection exists on the upload path). -/
theorem upload_negative_position_ignored (env : UploadEnv) (n : Int)
    (h1 : atoi env.positionStr = some n) (h2 : n < 0) :
    parsePositionForm env.positionStr = 0 ∧
    UploadProductImage env = UploadProductImage { env with positionStr := [] } := by
  have hne : ¬ env.positionStr = [] := by
    intro he
    rw [he] at h1
    simp [atoi] at h1
  have hp : parsePositionForm env.positionStr = 0 := by
    rw [parsePositionForm, if_pos hne, h1]
    simp only [ge_iff_le]
    rw [if_neg (by omega)]
  have hp2 : parsePositionForm [] = 0 := by decide
  refine ⟨hp, ?_⟩
  simp only [UploadProductImage, hp, hp2]

/-- C5 amended, witnessed on the "-5" scenario. -/
theorem upload_negative_position_ignored_witness :
    parsePositionForm (str "-5") = 0 ∧
    UploadProductImage { envBase with positionStr := str "-5" }
      = UploadProductImage
          { { envBase with positionStr := str "-5" } with positionStr := [] } :=
  upload_negative_position_ignored { envBase with positionStr := str "-5" }
    (-5) (by decide) (by decide)

/-- C6: the configured maximum defaults to 10 MiB = 10485760 bytes; a
declared size over the configured maximum makes `SaveFile` fail with the
size-exceeded error before any backend request, and on any upload whose
file exceeds the configured maximum the storage backend receives no
request, the metadata store receives zero calls, and the database is
unchanged. -/
theorem upload_size_exceeded_no_calls :
    (∀ url bucket, (NewSupabaseStorage url bucket).maxFileSize = 10485760) ∧
    (∀ (ss : SupabaseStorage) (backend : Backend) (f : FileHeader) (ts id8 : Str),
      f.size > ss.maxFileSize →
      SaveFile ss backend (some f) ts id8
        = (Except.error (GoError.sizeExceeded ss.maxFileSize), [])) ∧
    (∀ (env : UploadEnv) (f : FileHeader),
      env.formFile = some f → f.size > env.ss.maxFileSize →
      (UploadProductImage env).2.1 = [] ∧
      (UploadProductImage env).2.2.1 = [] ∧
      (UploadProductImage env).2.2.2 = env.db) := by
  refine ⟨fun url bucket => rfl, ?_, ?_⟩
  · intro ss backend f ts id8 h
    simp only [SaveFile, if_pos h]
  · intro env f hf hbig
    have hsf : SaveFile env.ss env.backend (some f) env.timestamp env.id8
        = (Except.error (GoError.sizeExceeded env.ss.maxFileSize), []) := by
      simp only [SaveFile, if_pos hbig]
    rw [UploadProductImage]
    split
    · exact ⟨rfl, rfl, rfl⟩
    · split
      · exact ⟨rfl, rfl, rfl⟩
      · split
        · exact ⟨rfl, rfl, rfl⟩
        · split
          · exact ⟨rfl, rfl, rfl⟩
          · split
            · exact ⟨rfl, rfl, rfl⟩
            · rw [hf]
              simp only [hsf]
              exact ⟨by trivial, by trivial, by trivial⟩

/-- C6, witnessed: an 11,000,000-byte upload against the default limit. -/
theorem upload_size_exceeded_no_calls_witness :
    (NewSupabaseStorage (str "https://proj.supabase.co") (str "images")).maxFileSize
      = 10485760 ∧
    SaveFile ssTest backendOk (some { photoJpg with size := 11000000 })
        (str "1700000000") (str "abcd1234")
      = (Except.error (GoError.sizeExceeded 10485760), []) ∧
    ((UploadProductImage
        { envBase with formFile := some { photoJpg with size := 11000000 } }).2.1 = [] ∧
     (UploadProductImage
        { envBase with formFile := some { photoJpg with size := 11000000 } }).2.2.1 = [] ∧
     (UploadProductImage
        { envBase with formFile := some { photoJpg with size := 11000000 } }).2.2.2 = dbP1) :=
  ⟨upload_size_exceeded_no_calls.1 (str "https://proj.supabase.co") (str "images"),
   upload_size_exceeded_no_calls.2.1 ssTest backendOk
     { photoJpg with size := 11000000 } (str "1700000000") (str "abcd1234") (by decide),
   upload_size_exceeded_no_calls.2.2
     { envBase with formFile := some { photoJpg with size := 11000000 } }
     { photoJpg with size := 11000000 } (by decide) (by decide)⟩

/-- C10 counterexample: `UpdateProductImagePosition` with the empty image
id (an id that exists nowhere in the store) and a negative position
returns the empty-arguments error, not the invalid-position error — the
emptiness guard precedes the negative-position guard — although the
metadata store is still untouched. -/
theorem updatePosition_negative_empty_id_counterexample :
    (serviceUpdateProductImagePosition dbP1 [] (str "v1") (-1)).1
        = Except.error GoError.emptyImageOrVendorID ∧
    ¬ (serviceUpdateProductImagePosition dbP1 [] (str "v1") (-1)).1
        = Except.error GoError.imagePositionNegative ∧
    (serviceUpdateProductImagePosition dbP1 [] (str "v1") (-1)).2.1 = [] := by
  decide

/-- C10 amended: for every database, image id, requestor id and negative
new position, `UpdateProductImagePosition` performs no metadata-store read
or write and leaves the database unchanged; whenever the image id and
requestor id are nonempty (which is guaranteed for every call the handler
makes), the result is exactly the invalid-position error — never the
not-found or ownership error. -/
theorem updatePosition_negative_before_lookup (db : DB)
    (imageID vendorID : Str) (newPosition : Int) (h : newPosition < 0) :
    ((serviceUpdateProductImagePosition db imageID vendorID newPosition).2.1 = [] ∧
     (serviceUpdateProductImagePosition db imageID vendorID newPosition).2.2 = db) ∧
    (¬ imageID = [] → ¬ vendorID = [] →
      (serviceUpdateProductImagePosition db imageID vendorID newPosition).1
        = Except.error GoError.imagePositionNegative) := by
  by_cases he : imageID = [] ∨ vendorID = []
  · constructor
    · simp only [serviceUpdateProductImagePosition, if_pos he]
      exact ⟨by trivial, by trivial⟩
    · intro h1 h2
      exact absurd he (not_or.mpr ⟨h1, h2⟩)
  · simp only [serviceUpdateProductImagePosition, if_neg he, if_pos h]
    exact ⟨⟨by trivial, by trivial⟩, fun _ _ => by trivial⟩

/-- C10 amended, witnessed at a nonexistent nonempty image id. -/
theorem updatePosition_negative_before_lookup_witness :
    ((serviceUpdateProductImagePosition dbP1 (str "ghost") (str "v2") (-1)).2.1 = [] ∧
     (serviceUpdateProductImagePosition dbP1 (str "ghost") (str "v2") (-1)).2.2 = dbP1) ∧
    (¬ str "ghost" = [] → ¬ str "v2" = [] →
      (serviceUpdateProductImagePosition dbP1 (str "ghost") (str "v2") (-1)).1
        = Except.error GoError.imagePositionNegative) :=
  updatePosition_negative_before_lookup dbP1 (str "ghost") (str "v2") (-1) (by decide)

/-! ### Ordering of `GetProductImages` results -/

/-- Ascending order of two rows under the `position` sort key. -/
def posLE (a b : ProductImage) : Prop := a.position ≤ b.position

theorem insertByPos_perm (a : ProductImage) (l : List ProductImage) :
    (insertByPos a l).Perm (a :: l) := by
  induction l with
  | nil => rfl
  | cons b t ih =>
    rw [insertByPos]
    by_cases h : a.position ≤ b.position
    · rw [if_pos h]
    · rw [if_neg h]
      exact (ih.cons b).trans (List.Perm.swap a b t)

theorem orderByPositionAsc_perm (l : List ProductImage) :
    (orderByPositionAsc l).Perm l := by
  induction l with
  | nil => rfl
  | cons a t ih =>
    exact (insertByPos_perm a (orderByPositionAsc t)).trans (ih.cons a)

theorem insertByPos_pairwise (a : ProductImage) (l : List ProductImage)
    (h : l.Pairwise posLE) : (insertByPos a l).Pairwise posLE := by
  induction l with
  | nil => simp [insertByPos, List.pairwise_cons]
  | cons b t ih =>
    rcases List.pairwise_cons.mp h with ⟨hb, ht⟩
    rw [insertByPos]
    by_cases hab : a.position ≤ b.position
    · rw [if_pos hab]
      refine List.pairwise_cons.mpr ⟨?_, h⟩
      intro x hx
      rcases List.mem_cons.mp hx with rfl | hx
      · exact hab
      · exact le_trans hab (hb x hx)
    · rw [if_neg hab]
      refine List.pairwise_cons.mpr ⟨?_, ih ht⟩
      intro x hx
      have hmem := (insertByPos_perm a t).mem_iff.mp hx
      rcases List.mem_cons.mp hmem with rfl | hx'
      · exact le_of_not_le hab
      · exact hb x hx'

theorem orderByPositionAsc_pairwise (l : List ProductImage) :
    (orderByPositionAsc l).Pairwise posLE := by
  induction l with
  | nil => exact List.Pairwise.nil
  | cons a t ih => exact insertByPos_pairwise a (orderByPositionAsc t) ih

/-- Images of product "p1" inserted with positions [3,1,2], plus one image
of another product. -/
def imgA : ProductImage :=
  { id := str "a", productID := str "p1", imageURL := str "a.jpg",
    position := 3, createdAt := 1 }

def imgB : ProductImage :=
  { id := str "b", productID := str "p1", imageURL := str "b.jpg",
    position := 1, createdAt := 2 }

def imgC : ProductImage :=
  { id := str "c", productID := str "p1", imageURL := str "c.jpg",
    position := 2, createdAt := 3 }

def imgD : ProductImage :=
  { id := str "d", productID := str "p2", imageURL := str "d.jpg",
    position := 0, createdAt := 4 }

/-- Database state after the [3,1,2] insertion order plus a foreign image. -/
def dbThree : DB :=
  { products := [prodP1], productImages := [imgA, imgB, imgC, imgD] }

/-- C7: `GetProductImages` returns exactly the rows of the requested
product (a permutation of the `WHERE product_id` filter), sorted ascending
by position; when the product has no images the result is the empty
sequence, not an error (and the service maps it to an explicit empty
slice); in particular after uploads with positions [3,1,2] the listing is
ordered [1,2,3] regardless of insertion order, foreign products' images
excluded. -/
theorem listForProduct_sorted_and_complete :
    (∀ db pid, (repoGetProductImages db pid).Pairwise posLE) ∧
    (∀ db pid, (repoGetProductImages db pid).Perm
        (db.productImages.filter (fun i => decide (i.productID = pid)))) ∧
    (∀ db pid, db.productImages.filter (fun i => decide (i.productID = pid)) = [] →
        repoGetProductImages db pid = []) ∧
    mapProductImagesToResponse [] = [] ∧
    (repoGetProductImages dbThree (str "p1")).map (fun i => i.position)
      = [1, 2, 3] := by
  refine ⟨?_, ?_, ?_, by decide, by decide⟩
  · intro db pid
    exact orderByPositionAsc_pairwise _
  · intro db pid
    exact orderByPositionAsc_perm _
  · intro db pid h
    rw [repoGetProductImages, h]
    rfl

/-- C7, witnessed on the concrete [3,1,2] database and the empty case. -/
theorem listForProduct_sorted_and_complete_witness :
    (repoGetProductImages dbThree (str "p1")).Pairwise posLE ∧
    repoGetProductImages dbP1 (str "p1") = [] :=
  ⟨listForProduct_sorted_and_complete.1 dbThree (str "p1"),
   listForProduct_sorted_and_complete.2.2.1 dbP1 (str "p1") (by decide)⟩

/-! ### The position invariant -/

/-- Every stored image row has a nonnegative position. -/
def posNonNeg (db : DB) : Prop := ∀ img ∈ db.productImages, 0 ≤ img.position

instance (db : DB) : Decidable (posNonNeg db) :=
  List.decidableBAll _ db.productImages

/-- The handler's position parse never produces a negative value. -/
theorem parsePositionForm_nonneg (s : Str) : 0 ≤ parsePositionForm s := by
  rw [parsePositionForm]
  by_cases h : ¬ s = []
  · rw [if_pos h]
    cases ha : atoi s with
    | none => exact le_refl 0
    | some n =>
      show 0 ≤ if n ≥ 0 then n else 0
      by_cases hn : n ≥ 0
      · rw [if_pos hn]
        exact hn
      · rw [if_neg hn]
  · rw [if_neg h]

/-- The service insert preserves the invariant when the inserted position
is nonnegative. -/
theorem serviceCreateProductImage_preserves_nonneg (db : DB)
    (productID vendorID : Str) (reqPosition : Int) (fileImageURL newID : Str)
    (now : Nat) (insertErr : Option Str)
    (hdb : posNonNeg db) (hpos : 0 ≤ reqPosition) :
    posNonNeg (serviceCreateProductImage db productID vendorID reqPosition
      fileImageURL newID now insertErr).2.2 := by
  by_cases he : productID = [] ∨ vendorID = []
  · rw [serviceCreateProductImage, if_pos he]
    exact hdb
  · cases hg : repoGetProductByID db productID with
    | error e =>
      simp only [serviceCreateProductImage, if_neg he, hg]
      exact hdb
    | ok product =>
      by_cases ho : ¬ product.userID = vendorID
      · simp only [serviceCreateProductImage, if_neg he, hg, if_pos ho]
        exact hdb
      · cases insertErr with
        | some e =>
          simp only [serviceCreateProductImage, if_neg he, hg, if_neg ho,
            repoCreateProductImage]
          exact hdb
        | none =>
          simp only [serviceCreateProductImage, if_neg he, hg, if_neg ho,
            repoCreateProductImage]
          intro img hmem
          rcases List.mem_append.mp hmem with hmem | hmem
          · exact hdb img hmem
          · rcases List.mem_singleton.mp hmem with rfl
            exact hpos

/-- The upload handler preserves the position invariant on the database. -/
theorem uploadHandler_preserves_nonneg (env : UploadEnv)
    (hdb : posNonNeg env.db) : posNonNeg (UploadProductImage env).2.2.2 := by
  rw [UploadProductImage]
  split
  · exact hdb
  · split
    · exact hdb
    next vid hequ =>
    split
    · exact hdb
    · split
      · exact hdb
      · split
        · exact hdb
        · split
          · exact hdb
          · split
            · exact hdb
            · next filename scalls hsave =>
              have hsvc := serviceCreateProductImage_preserves_nonneg env.db
                env.productID vid (parsePositionForm env.positionStr) filename
                env.newImageID env.now env.insertErr hdb
                (parsePositionForm_nonneg env.positionStr)
              rcases hres : serviceCreateProductImage env.db env.productID vid
                  (parsePositionForm env.positionStr) filename env.newImageID
                  env.now env.insertErr with ⟨res, mcalls, db'⟩
              rw [hres] at hsvc
              simp only [hres]
              cases res with
              | error e => exact hsvc
              | ok response => exact hsvc

/-- The repository position update preserves the invariant when the new
position is nonnegative. -/
theorem repoUpdatePosition_preserves_nonneg (db : DB) (imageID : Str)
    (position : Int) (hdb : posNonNeg db) (hpos : 0 ≤ position) :
    posNonNeg (repoUpdateProductImagePosition db imageID position).2 := by
  have hmap : ∀ img ∈ db.productImages.map
      (fun i => if i.id = imageID then { i with position := position } else i),
      0 ≤ img.position := by
    intro img hmem
    rcases List.mem_map.mp hmem with ⟨x, hx, hfx⟩
    by_cases hid : x.id = imageID
    · rw [if_pos hid] at hfx
      rw [← hfx]
      exact hpos
    · rw [if_neg hid] at hfx
      rw [← hfx]
      exact hdb x hx
  rw [repoUpdateProductImagePosition]
  by_cases hc : db.productImages.countP (fun i => decide (i.id = imageID)) = 0
  · rw [if_pos hc]
    exact hmap
  · rw [if_neg hc]
    exact hmap

/-- The position-update service preserves the invariant for every input. -/
theorem serviceUpdatePosition_preserves_nonneg (db : DB)
    (imageID vendorID : Str) (newPosition : Int) (hdb : posNonNeg db) :
    posNonNeg (serviceUpdateProductImagePosition db imageID vendorID
      newPosition).2.2 := by
  by_cases he : imageID = [] ∨ vendorID = []
  · rw [serviceUpdateProductImagePosition, if_pos he]
    exact hdb
  · by_cases hn : newPosition < 0
    · rw [serviceUpdateProductImagePosition, if_neg he, if_pos hn]
      exact hdb
    · cases hg : repoGetProductImage db imageID with
      | error e =>
        simp only [serviceUpdateProductImagePosition, if_neg he, if_neg hn, hg]
        exact hdb
      | ok image =>
        cases hp : repoGetProductByID db image.productID with
        | error e =>
          simp only [serviceUpdateProductImagePosition, if_neg he, if_neg hn,
            hg, hp]
          exact hdb
        | ok product =>
          by_cases ho : ¬ product.userID = vendorID
          · simp only [serviceUpdateProductImagePosition, if_neg he, if_neg hn,
              hg, hp, if_pos ho]
            exact hdb
          · have hru := repoUpdatePosition_preserves_nonneg db imageID
              newPosition hdb (by omega)
            simp only [serviceUpdateProductImagePosition, if_neg he, if_neg hn,
              hg, hp, if_neg ho]
            rcases hreq : repoUpdateProductImagePosition db imageID newPosition
              with ⟨res, db'⟩
            rw [hreq] at hru
            exact hru

/-- C8: both write paths that set a position keep every reachable
`ProductImage` row's position ≥ 0 for every input: the upload handler's
record creation (whose parsed position is always ≥ 0) and the
position-update service (which rejects negative values) each map a
database satisfying the invariant to a database satisfying it. -/
theorem position_invariant_preserved :
    (∀ env : UploadEnv, posNonNeg env.db →
      posNonNeg (UploadProductImage env).2.2.2) ∧
    (∀ (db : DB) (imageID vendorID : Str) (newPosition : Int), posNonNeg db →
      posNonNeg (serviceUpdateProductImagePosition db imageID vendorID
        newPosition).2.2) :=
  ⟨uploadHandler_preserves_nonneg,
   fun db imageID vendorID newPosition hdb =>
     serviceUpdatePosition_preserves_nonneg db imageID vendorID newPosition hdb⟩

/-- C8, witnessed on the happy-path upload and a concrete position update. -/
theorem position_invariant_preserved_witness :
    posNonNeg (UploadProductImage envBase).2.2.2 ∧
    posNonNeg (serviceUpdateProductImagePosition dbThree (str "a") (str "v1")
      7).2.2 :=
  ⟨position_invariant_preserved.1 envBase (by decide),
   position_invariant_preserved.2 dbThree (str "a") (str "v1") 7 (by decide)⟩

/-- C4 amended, witnessed on the concrete "photo.jpg" upload. -/
theorem saveFile_ok_returns_full_url_witness :
    str "https://proj.supabase.co/storage/v1/object/public/images/1700000000_abcd1234.jpg"
        = GetURL ssTest (generateUniqueFilename (str "1700000000") (str "abcd1234")
            (toLowerStr (filepathExt photoJpg.filename))) ∧
    '/' ∈ str "https://proj.supabase.co/storage/v1/object/public/images/1700000000_abcd1234.jpg" :=
  saveFile_ok_returns_full_url ssTest backendOk photoJpg (str "1700000000") (str "abcd1234")
    (str "https://proj.supabase.co/storage/v1/object/public/images/1700000000_abcd1234.jpg")
    [StorageCall.upload (str "images") (str "1700000000_abcd1234.jpg")]
    (by decide)

end VendorHub
